import Mathlib

/-! Shallow embedding of `detectree2/models/post_processing.py` and proofs about
its behaviour. Machine reals are modelled exactly by `Rat`; Python exceptions
by an explicit `Except PyErr`; the filesystem facts a run consumes are
threaded in as per-file `FileEnv` records; functions imported from the
repository's `outputs` module (absent from the sources) and from third-party
libraries are carried in an `Env` record and are documented where defined.
-/

set_option autoImplicit false

namespace Detectree2

/-- Python exception values the post-processing code can raise: `TypeError`
(a call with the wrong arity), `RasterioIOError` (missing raster tile),
`json.JSONDecodeError` (malformed prediction file), `KeyError` (missing dict
key), and `ValueError` (thread pool constructed with zero workers). -/
inductive PyErr where
  | typeError
  | ioError
  | jsonDecodeError
  | keyError (key : String)
  | valueError
  deriving DecidableEq

/-- A run-length-encoded segmentation mask, represented abstractly by an
identifier; its decoding (`mask_util.decode` followed by
`polygon_from_mask`) is the environment's `decodePoly` function. -/
abbrev Seg := Nat

/-- One element of a prediction file's JSON array. Each field is `Option`al
because the corresponding dictionary key may be absent; the source reads the
keys `category_id` (multi-class mode only), `segmentation` and `score`. -/
structure Instance where
  category_id : Option Int
  segmentation : Option Seg
  score : Option Rat
  deriving DecidableEq

/-- A geographic bounding box, as produced by `box_filter`. -/
structure BBox where
  minx : Rat
  miny : Rat
  maxx : Rat
  maxy : Rat
  deriving DecidableEq

/-- Result of `polygon_from_mask(mask_util.decode(crown))`: either the
integer sentinel `0` (degenerate mask, line 116 checks `crown_coords == 0`)
or a ring of integer pixel coordinates, already paired as the
`reshape(-1, 2)` at line 119 pairs them: `(x = col, y = row)`. -/
inductive PolyOrZero where
  | zero
  | poly (ring : List (Int × Int))
  deriving DecidableEq

/-- A 6-parameter affine transform in rasterio's order:
`x = a*col + b*row + c`, `y = d*col + e*row + f`. -/
structure Affine where
  a : Rat
  b : Rat
  c : Rat
  d : Rat
  e : Rat
  f : Rat
  deriving DecidableEq

/-- One output feature as built at lines 132-154: properties
`Confidence_score` and (multi-class only) `category`, plus the single
polygon ring. `category = none` models the key being absent. -/
structure GeoFeature where
  confidence_score : Rat
  category : Option Int
  coordinates : List (Rat × Rat)
  deriving DecidableEq

/-- External collaborators of the projection pipeline.
`decodePoly` stands for `polygon_from_mask ∘ mask_util.decode`.
`box_filter` and `filename_geoinfo` are imported from the repository's
`outputs` module, which is not among the sources. Modelled from the spec:
`box_filter(filename_geo, shift)` returns the tile's usable bounding box
(full extent shrunk by the overlap shift on each side), and
`filename_geoinfo(filename_geo)` returns five tile-geometry values whose
fifth component is the EPSG id. -/
structure Env where
  decodePoly : Seg → PolyOrZero
  box_filter : String → Rat → BBox
  filename_geoinfo : String → Int × Int × Int × Int × Int

/-- Model of `rasterio.transform.xy(transform, rows, cols)` with its
documented default `offset="center"`: each pixel `(row, col)` is mapped at
its center, i.e. the affine transform is applied to
`(col + 1/2, row + 1/2)`; the x and y result sequences are returned
separately, in input order. -/
def transform_xy (t : Affine) (rows cols : List Rat) : List Rat × List Rat :=
  ((cols.zip rows).map (fun p => t.a * (p.1 + 1/2) + t.b * (p.2 + 1/2) + t.c),
   (cols.zip rows).map (fun p => t.d * (p.1 + 1/2) + t.e * (p.2 + 1/2) + t.f))

/-- The `np.array(crown_coords).reshape(-1, 2)` pixel array, as rationals. -/
def coordsToArray (ring : List (Int × Int)) : List (Rat × Rat) :=
  ring.map (fun p => ((p.1 : Rat), (p.2 : Rat)))

/-- Lines 119-124: project the decoded pixel ring through the raster
transform (`rows` = second column, `cols` = first column) and zip the x and
y sequences back into coordinate pairs (`moved_coords`). -/
def projectRing (t : Affine) (ring : List (Int × Int)) : List (Rat × Rat) :=
  let arr := coordsToArray ring
  let xy := transform_xy t (arr.map Prod.snd) (arr.map Prod.fst)
  xy.1.zip xy.2

/-- Source `is_edge_crown` (lines 158-168): the body is a bare `pass`, so
every call returns Python `None`, although the docstring promises a Bool
("True if the crown is touching the edge of the image, False otherwise").
Return type `Option Bool`, value `none`. -/
def is_edge_crown (_crown_coords : List (Rat × Rat)) (_bbox : BBox) : Option Bool :=
  none

/-- Python truthiness of an optional Bool: `None` is falsy. -/
def pyTruthy : Option Bool → Bool
  | none => false
  | some b => b

/-- A Python dict lookup `d[k]`: raises `KeyError k` when the key is absent. -/
def pyGet {β : Type} (v : Option β) (k : String) : Except PyErr β :=
  match v with
  | some b => .ok b
  | none => .error (.keyError k)

/-- Lines 99-156, `process_crowns`: iterate the instances in order; in
multi-class mode read `category_id` first (line 104); read `segmentation`
and `score` (lines 106-107); skip the instance when a confidence threshold
is given and the score is strictly below it (line 109); skip when the mask
decodes to the `0` sentinel (line 116); project the ring (lines 119-124);
when a shift is given, derive the bounding box via `box_filter` and skip
when `not is_edge_crown(moved_coords, bbox)` is truthy (lines 126-130);
otherwise emit one feature (lines 132-154). A `KeyError` from any dict
lookup aborts the whole call. -/
def process_crowns (env : Env) (multi_class : Bool) (raster_transform : Affine)
    (filename : String) (shift : Option Rat) (confidence : Option Rat) :
    List Instance → Except PyErr (List GeoFeature)
  | [] => .ok []
  | crown_data :: rest =>
    match (if multi_class then (pyGet crown_data.category_id "category_id").map some
           else .ok none) with
    | .error e => .error e
    | .ok category =>
      match pyGet crown_data.segmentation "segmentation" with
      | .error e => .error e
      | .ok crown =>
        match pyGet crown_data.score "score" with
        | .error e => .error e
        | .ok confidence_score =>
          if (match confidence with
              | some th => decide (confidence_score < th)
              | none => false) then
            process_crowns env multi_class raster_transform filename shift confidence rest
          else
            match env.decodePoly crown with
            | .zero =>
              process_crowns env multi_class raster_transform filename shift confidence rest
            | .poly ring =>
              let moved_coords := projectRing raster_transform ring
              if (match shift with
                  | some s =>
                    !pyTruthy (is_edge_crown moved_coords
                      (env.box_filter (filename.replace ".json" ".geojson") s))
                  | none => false) then
                process_crowns env multi_class raster_transform filename shift confidence rest
              else
                match process_crowns env multi_class raster_transform filename shift confidence rest with
                | .error e => .error e
                | .ok feats =>
                  .ok ({ confidence_score := confidence_score,
                         category := category,
                         coordinates := moved_coords } :: feats)

/-- pathlib's `suffix` of a file name: the substring from the last dot,
empty when there is no dot or the last dot is leading or trailing. -/
def pathSuffix (name : String) : String :=
  match (name.toList.enum.filter (fun p => p.2 == '.')).getLast? with
  | none => ""
  | some q =>
    if q.1 = 0 ∨ q.1 = name.toList.length - 1 then ""
    else String.mk (name.toList.drop q.1)

/-- pathlib's `with_suffix`: drop the current suffix, append the new one. -/
def withSuffix (name suf : String) : String :=
  name.dropRight (pathSuffix name).length ++ suf

/-- Line 67: strip every `"Prediction_"` occurrence from the file name and
swap the extension to `".tif"` to get the companion tile name. -/
def tifName (name : String) : String :=
  withSuffix (name.replace "Prediction_" "") ".tif"

/-- Line 94: the output name is the input basename with suffix `.geojson`. -/
def geojsonName (name : String) : String :=
  withSuffix name ".geojson"

/-- The filesystem facts one prediction file's processing consumes: whether
its companion raster tile exists (`rasterio.open` succeeds), the parse of
its own JSON content (`none` = malformed, `json.load` raises), and the
tile's affine transform. -/
structure FileEnv where
  tileExists : Bool
  content : Option (List Instance)
  transform : Affine
  deriving DecidableEq

/-- The serialized output dictionary of lines 75-84 and 92. -/
structure GeoFile where
  crs : String
  features : List GeoFeature
  deriving DecidableEq

/-- One output-file write (lines 96-97): target name and content. -/
structure Write where
  name : String
  geofile : GeoFile
  deriving DecidableEq

/-- Line 70 calls `tifpath.replace('.tif', '.geojson')` where `tifpath` is a
`pathlib.Path`; `Path.replace(target)` is a filesystem rename taking exactly
one target argument, so the two-argument call raises `TypeError` before any
further processing of the file. -/
def pathReplace2 (_p _old _new : String) : Except PyErr String :=
  .error .typeError

/-- Lines 67-97, the body of the per-file loop of `project_files`: resolve
the tile path, open the raster (line 69), derive the geo-metadata path
(line 70, the two-argument `Path.replace`), read the EPSG id (line 71),
build the skeleton feature collection (lines 75-84), parse the prediction
file (lines 87-88), process the crowns (line 90) and produce the write
(lines 94-97). The first raised error aborts the file. -/
def projectOneFile (env : Env) (name : String) (fe : FileEnv) (multi_class : Bool)
    (confidence : Option Rat) : Except PyErr Write :=
  match (if fe.tileExists then Except.ok fe.transform
         else Except.error PyErr.ioError) with
  | .error e => .error e
  | .ok raster_transform =>
    match pathReplace2 (tifName name) ".tif" ".geojson" with
    | .error e => .error e
    | .ok filename_geo =>
      let epsg := (env.filename_geoinfo filename_geo).2.2.2.2
      let geofile : GeoFile :=
        { crs := "urn:ogc:def:crs:EPSG::" ++ toString epsg, features := [] }
      match (match fe.content with
             | some l => Except.ok l
             | none => Except.error PyErr.jsonDecodeError) with
      | .error e => .error e
      | .ok datajson =>
        match process_crowns env multi_class raster_transform name none confidence datajson with
        | .error e => .error e
        | .ok feats =>
          .ok { name := geojsonName name, geofile := { geofile with features := feats } }

/-- Lines 61-97, `project_files`: process the batch in order. There is no
try/except in the loop, so the first error aborts the remaining files; the
result pairs the writes performed before the abort with the escaped error,
if any. The `follow` flag only controls progress printing. -/
def project_files (env : Env) (multi_class : Bool) (confidence : Option Rat)
    (_follow : Bool) : List (String × FileEnv) → List Write × Option PyErr
  | [] => ([], none)
  | (name, fe) :: rest =>
    match projectOneFile env name fe multi_class confidence with
    | .error e => ([], some e)
    | .ok w =>
      let r := project_files env multi_class confidence _follow rest
      (w :: r.1, r.2)

/-- Line 31: keep exactly the directory entries whose pathlib suffix is
`".json"`. The folder is modelled as its listing, each name paired with the
filesystem facts its processing would consume. -/
def listEntries (pred_folder : List (String × FileEnv)) : List (String × FileEnv) :=
  pred_folder.filter (fun p => pathSuffix p.1 == ".json")

/-- The `i`-th inner list of a list of lists (`[]` when out of range). -/
def nth {α : Type} (chunks : List (List α)) (i : Nat) : List α :=
  (chunks[i]?).getD []

/-- `chunk_filenames[i].append(entry)` (line 42): in-place append at index
`i`; out-of-range indices never occur in reachable states. -/
def appendAt {α : Type} (chunks : List (List α)) (i : Nat) (x : α) : List (List α) :=
  chunks.set i (nth chunks i ++ [x])

/-- Lines 40-42: start from `max_workers` empty batches and append entry
`i` to batch `i % max_workers`. -/
def chunkFilenames {α : Type} (w : Nat) (entries : List α) : List (List α) :=
  entries.enum.foldl (fun chunks p => appendAt chunks (p.1 % w) p.2)
    (List.replicate w [])

/-- Line 45: only the non-empty batches are submitted to the pool. -/
def dispatched {α : Type} (w : Nat) (entries : List α) : List (List α) :=
  (chunkFilenames w entries).filter (fun c => decide (0 < c.length))

/-- Lines 14-52, `project_to_geojson`: enumerate the `.json` entries; when
`max_workers == 1` run `project_files` sequentially with no exception
handler, so its error (if any) propagates to the caller; otherwise clamp
the worker count to `min(max_workers, len(entries))`, raise the pool's
`ValueError` when that is zero, and else run every non-empty batch,
collecting all their writes while swallowing (printing) every batch error,
so the parallel path returns normally. -/
def project_to_geojson (env : Env) (pred_folder : List (String × FileEnv))
    (multi_class : Bool) (max_workers : Nat) : List Write × Option PyErr :=
  let entries := listEntries pred_folder
  if max_workers = 1 then
    project_files env multi_class none true entries
  else
    let w := min max_workers entries.length
    if w = 0 then ([], some .valueError)
    else
      (((dispatched w entries).map
          (fun c => (project_files env multi_class none false c).1)).flatten, none)

/-! Spec-side definitions, used to compare the code with the specified
behaviour. -/

/-- Modelled from the spec: EdgeCrownFilter's `isInterior(geoRing,
usableBounds)` "returns true only if every coordinate of geoRing lies
strictly within usableBounds"; a ring with any point on or outside the
boundary is edge-touching. This is the contract the spec assigns to the
unimplemented `is_edge_crown`. -/
def specIsInterior (ring : List (Rat × Rat)) (b : BBox) : Bool :=
  ring.all (fun p =>
    decide (b.minx < p.1) && decide (p.1 < b.maxx) &&
    decide (b.miny < p.2) && decide (p.2 < b.maxy))

/-- Spec-side variant of `process_crowns` for claim C9: the same pipeline
with the confidence filter and the edge-crown filter absent, written from
the spec's words; to be compared with `process_crowns` at
`shift = none, confidence = none`. -/
def processCrownsNoFilters (env : Env) (multi_class : Bool)
    (raster_transform : Affine) : List Instance → Except PyErr (List GeoFeature)
  | [] => .ok []
  | crown_data :: rest =>
    match (if multi_class then (pyGet crown_data.category_id "category_id").map some
           else .ok none) with
    | .error e => .error e
    | .ok category =>
      match pyGet crown_data.segmentation "segmentation" with
      | .error e => .error e
      | .ok crown =>
        match pyGet crown_data.score "score" with
        | .error e => .error e
        | .ok confidence_score =>
          match env.decodePoly crown with
          | .zero => processCrownsNoFilters env multi_class raster_transform rest
          | .poly ring =>
            match processCrownsNoFilters env multi_class raster_transform rest with
            | .error e => .error e
            | .ok feats =>
              .ok ({ confidence_score := confidence_score,
                     category := category,
                     coordinates := projectRing raster_transform ring } :: feats)

/-- Spec-side variant of `projectOneFile` using the filter-free crown
pipeline (claim C9). -/
def projectOneFileNoFilters (env : Env) (name : String) (fe : FileEnv)
    (multi_class : Bool) : Except PyErr Write :=
  match (if fe.tileExists then Except.ok fe.transform
         else Except.error PyErr.ioError) with
  | .error e => .error e
  | .ok raster_transform =>
    match pathReplace2 (tifName name) ".tif" ".geojson" with
    | .error e => .error e
    | .ok filename_geo =>
      let epsg := (env.filename_geoinfo filename_geo).2.2.2.2
      let geofile : GeoFile :=
        { crs := "urn:ogc:def:crs:EPSG::" ++ toString epsg, features := [] }
      match (match fe.content with
             | some l => Except.ok l
             | none => Except.error PyErr.jsonDecodeError) with
      | .error e => .error e
      | .ok datajson =>
        match processCrownsNoFilters env multi_class raster_transform datajson with
        | .error e => .error e
        | .ok feats =>
          .ok { name := geojsonName name, geofile := { geofile with features := feats } }

/-- Spec-side variant of `project_files` using the filter-free crown
pipeline (claim C9). -/
def projectFilesNoFilters (env : Env) (multi_class : Bool) :
    List (String × FileEnv) → List Write × Option PyErr
  | [] => ([], none)
  | (name, fe) :: rest =>
    match projectOneFileNoFilters env name fe multi_class with
    | .error e => ([], some e)
    | .ok w =>
      let r := projectFilesNoFilters env multi_class rest
      (w :: r.1, r.2)

/-- Spec-side variant of the scheduler using the filter-free pipeline
(claim C9). -/
def projectToGeojsonNoFilters (env : Env) (pred_folder : List (String × FileEnv))
    (multi_class : Bool) (max_workers : Nat) : List Write × Option PyErr :=
  let entries := listEntries pred_folder
  if max_workers = 1 then
    projectFilesNoFilters env multi_class entries
  else
    let w := min max_workers entries.length
    if w = 0 then ([], some .valueError)
    else
      (((dispatched w entries).map
          (fun c => (projectFilesNoFilters env multi_class c).1)).flatten, none)

/-! Analysis helpers for the round-robin partition. -/

/-- The sublist of `xs` whose positions `p` satisfy `(k + p) % w = i`:
starting the position counter at `k`, keep every element whose counter is
congruent to `i` modulo `w`. -/
def everyNthFrom {α : Type} (w i : Nat) : Nat → List α → List α
  | _, [] => []
  | k, x :: xs =>
    if k % w = i then x :: everyNthFrom w i (k + 1) xs
    else everyNthFrom w i (k + 1) xs

/-- Number of steps from residue `r` forward to residue `i`, modulo `w`. -/
def residueDist (w r i : Nat) : Nat :=
  if r ≤ i then i - r else i + w - r

/-! Concrete sample data used by the concrete theorems below. -/

/-- Identity affine transform (`rasterio.Affine.identity()`). -/
def affineIdentity : Affine := ⟨1, 0, 0, 0, 1, 0⟩

/-- A square pixel ring strictly inside `bbox1` once projected. -/
def ring1 : List (Int × Int) := [(1, 1), (3, 1), (3, 3), (1, 3)]

/-- A usable bounding box comfortably containing `ring1`. -/
def bbox1 : BBox := ⟨0, 0, 10, 10⟩

/-- A concrete environment: every mask decodes to `ring1`, every bounding
box is `bbox1`, every tile has EPSG id 4326. -/
def env1 : Env :=
  { decodePoly := fun _ => .poly ring1,
    box_filter := fun _ _ => bbox1,
    filename_geoinfo := fun _ => (0, 0, 0, 0, 4326) }

/-- A well-formed instance: category 1, decodable mask, score 9/10. -/
def inst1 : Instance :=
  { category_id := some 1, segmentation := some 0, score := some (9/10) }

/-- An instance whose dictionary has no `category_id` key and whose score
is low. -/
def instNoCat : Instance :=
  { category_id := none, segmentation := some 0, score := some (1/10) }

/-- The feature `process_crowns` emits for `inst1` in multi-class mode with
the identity transform. -/
def feat1 : GeoFeature :=
  { confidence_score := 9/10, category := some 1,
    coordinates := [(3/2, 3/2), (7/2, 3/2), (7/2, 7/2), (3/2, 7/2)] }

/-- File facts for a well-formed prediction file with an existing tile. -/
def goodFe : FileEnv :=
  { tileExists := true, content := some [inst1], transform := affineIdentity }

/-- File facts for a malformed prediction file (JSON parse fails). -/
def badFe : FileEnv :=
  { tileExists := true, content := none, transform := affineIdentity }

/-- A one-file prediction folder. -/
def folderA : List (String × FileEnv) := [("Prediction_a.json", goodFe)]

/-- A folder holding a single non-prediction file (suffix is not `.json`). -/
def folderT : List (String × FileEnv) := [("notes.txt", goodFe)]

/-- Ten prediction files, the sixth malformed, the other nine well-formed. -/
def files10 : List (String × FileEnv) :=
  [("Prediction_a1.json", goodFe), ("Prediction_a2.json", goodFe),
   ("Prediction_a3.json", goodFe), ("Prediction_a4.json", goodFe),
   ("Prediction_a5.json", goodFe), ("Prediction_a6.json", badFe),
   ("Prediction_a7.json", goodFe), ("Prediction_a8.json", goodFe),
   ("Prediction_a9.json", goodFe), ("Prediction_b1.json", goodFe)]

deriving instance DecidableEq for Except

/-! Helper lemmas about the round-robin chunking. -/

theorem nth_cons_zero {α : Type} (c : List α) (cs : List (List α)) :
    nth (c :: cs) 0 = c := by
  simp [nth]

theorem nth_cons_succ {α : Type} (c : List α) (cs : List (List α)) (i : Nat) :
    nth (c :: cs) (i + 1) = nth cs i := by
  simp [nth]

theorem nth_set_self {α : Type} (l : List (List α)) (i : Nat) (h : i < l.length)
    (v : List α) : nth (l.set i v) i = v := by
  induction l generalizing i with
  | nil => simp at h
  | cons c cs ih =>
    cases i with
    | zero => simp [nth]
    | succ i =>
      rw [List.set_cons_succ, nth_cons_succ]
      exact ih i (Nat.lt_of_succ_lt_succ h)

theorem nth_set_ne {α : Type} (l : List (List α)) (i j : Nat) (h : i ≠ j)
    (v : List α) : nth (l.set i v) j = nth l j := by
  induction l generalizing i j with
  | nil => rfl
  | cons c cs ih =>
    cases i with
    | zero =>
      cases j with
      | zero => exact absurd rfl h
      | succ j => rw [List.set_cons_zero, nth_cons_succ, nth_cons_succ]
    | succ i =>
      cases j with
      | zero => rw [List.set_cons_succ, nth_cons_zero, nth_cons_zero]
      | succ j =>
        rw [List.set_cons_succ, nth_cons_succ, nth_cons_succ]
        exact ih i j (fun hh => h (by rw [hh]))

theorem length_appendAt {α : Type} (ch : List (List α)) (i : Nat) (x : α) :
    (appendAt ch i x).length = ch.length := by
  simp [appendAt]

theorem nth_appendAt_self {α : Type} (ch : List (List α)) (i : Nat)
    (h : i < ch.length) (x : α) : nth (appendAt ch i x) i = nth ch i ++ [x] :=
  nth_set_self ch i h _

theorem nth_appendAt_ne {α : Type} (ch : List (List α)) (i j : Nat) (h : i ≠ j)
    (x : α) : nth (appendAt ch i x) j = nth ch j :=
  nth_set_ne ch i j h _

theorem nth_replicate {α : Type} (w i : Nat) :
    nth (List.replicate w ([] : List α)) i = [] := by
  induction w generalizing i with
  | zero => simp [nth]
  | succ w ih =>
    cases i with
    | zero => rw [List.replicate_succ, nth_cons_zero]
    | succ i => rw [List.replicate_succ, nth_cons_succ]; exact ih i

theorem chunkFold_nth {α : Type} (w i : Nat) (hi : i < w) :
    ∀ (xs : List α) (k : Nat) (acc : List (List α)), acc.length = w →
      nth ((List.enumFrom k xs).foldl
            (fun chunks p => appendAt chunks (p.1 % w) p.2) acc) i
        = nth acc i ++ everyNthFrom w i k xs := by
  intro xs
  induction xs with
  | nil =>
    intro k acc hacc
    simp [everyNthFrom]
  | cons x xs ih =>
    intro k acc hacc
    have hw : 0 < w := Nat.lt_of_le_of_lt (Nat.zero_le i) hi
    have hstep : (List.enumFrom k (x :: xs)).foldl
          (fun chunks p => appendAt chunks (p.1 % w) p.2) acc
        = (List.enumFrom (k + 1) xs).foldl
            (fun chunks p => appendAt chunks (p.1 % w) p.2)
            (appendAt acc (k % w) x) := rfl
    rw [hstep, ih (k + 1) (appendAt acc (k % w) x)
      (by rw [length_appendAt]; exact hacc)]
    by_cases h : k % w = i
    · subst h
      rw [nth_appendAt_self acc (k % w) (by rw [hacc]; exact hi) x]
      simp [everyNthFrom, List.append_assoc]
    · rw [nth_appendAt_ne acc (k % w) i h x]
      simp [everyNthFrom, h]

theorem chunkFilenames_nth {α : Type} (w i : Nat) (hi : i < w) (entries : List α) :
    nth (chunkFilenames w entries) i = everyNthFrom w i 0 entries := by
  have h := chunkFold_nth w i hi entries 0 (List.replicate w []) (by simp)
  simpa [chunkFilenames, List.enum, nth_replicate] using h

theorem everyNthFrom_getElem {α : Type} (w i : Nat) (hi : i < w) :
    ∀ (xs : List α) (k j : Nat),
      (everyNthFrom w i k xs)[j]? = xs[residueDist w (k % w) i + j * w]? := by
  intro xs
  induction xs with
  | nil =>
    intro k j
    simp [everyNthFrom]
  | cons x xs ih =>
    intro k j
    have hw : 0 < w := Nat.lt_of_le_of_lt (Nat.zero_le i) hi
    have hr : k % w < w := Nat.mod_lt _ hw
    have hs : (k + 1) % w = (k % w + 1) % w := (Nat.mod_add_mod k w 1).symm
    by_cases h : k % w = i
    · rw [show everyNthFrom w i k (x :: xs) = x :: everyNthFrom w i (k + 1) xs from by
        simp [everyNthFrom, h]]
      have hd : residueDist w (k % w) i = 0 := by simp [residueDist, h]
      cases j with
      | zero => simp [hd]
      | succ j =>
        rw [List.getElem?_cons_succ, ih (k + 1) j]
        have hd1 : residueDist w ((k + 1) % w) i = w - 1 := by
          rw [hs, h]
          by_cases hiw : i + 1 < w
          · rw [Nat.mod_eq_of_lt hiw]
            unfold residueDist
            split_ifs <;> omega
          · have hieq : i + 1 = w := by omega
            rw [hieq, Nat.mod_self]
            unfold residueDist
            split_ifs <;> omega
        rw [hd1, hd]
        have harith : 0 + (j + 1) * w = (w - 1 + j * w) + 1 := by
          have hm : (j + 1) * w = j * w + w := Nat.succ_mul j w
          omega
        rw [harith, List.getElem?_cons_succ]
    · rw [show everyNthFrom w i k (x :: xs) = everyNthFrom w i (k + 1) xs from by
        simp [everyNthFrom, h]]
      rw [ih (k + 1) j]
      have hd : residueDist w ((k + 1) % w) i + 1 = residueDist w (k % w) i := by
        rw [hs]
        by_cases hrw : k % w + 1 < w
        · rw [Nat.mod_eq_of_lt hrw]
          unfold residueDist
          split_ifs <;> omega
        · have h2 : k % w + 1 = w := by omega
          rw [h2, Nat.mod_self]
          unfold residueDist
          split_ifs <;> omega
      rw [← hd]
      have harith : residueDist w ((k + 1) % w) i + 1 + j * w
          = (residueDist w ((k + 1) % w) i + j * w) + 1 := by omega
      rw [harith, List.getElem?_cons_succ]

theorem appendAt_cons_zero {α : Type} (c : List α) (cs : List (List α)) (x : α) :
    appendAt (c :: cs) 0 x = (c ++ [x]) :: cs := by
  rw [appendAt, nth_cons_zero, List.set_cons_zero]

theorem appendAt_cons_succ {α : Type} (c : List α) (cs : List (List α)) (i : Nat)
    (x : α) : appendAt (c :: cs) (i + 1) x = c :: appendAt cs i x := by
  rw [appendAt, nth_cons_succ, List.set_cons_succ, appendAt]

theorem flatten_appendAt {α : Type} (ch : List (List α)) (i : Nat)
    (h : i < ch.length) (x : α) :
    (appendAt ch i x).flatten.Perm (ch.flatten ++ [x]) := by
  induction ch generalizing i with
  | nil => simp at h
  | cons c cs ih =>
    cases i with
    | zero =>
      rw [appendAt_cons_zero]
      simp only [List.flatten_cons, List.append_assoc]
      exact List.Perm.append_left c List.perm_append_comm
    | succ i =>
      rw [appendAt_cons_succ]
      simp only [List.flatten_cons, List.append_assoc]
      exact List.Perm.append_left c (ih i (Nat.lt_of_succ_lt_succ h))

theorem chunkFold_flatten_perm {α : Type} (w : Nat) (hw : 0 < w) :
    ∀ (l : List (Nat × α)) (acc : List (List α)), acc.length = w →
      ((l.foldl (fun chunks p => appendAt chunks (p.1 % w) p.2) acc).flatten).Perm
        (acc.flatten ++ l.map Prod.snd) := by
  intro l
  induction l with
  | nil =>
    intro acc hacc
    simp
  | cons p l ih =>
    intro acc hacc
    have h1 : ((appendAt acc (p.1 % w) p.2).flatten).Perm (acc.flatten ++ [p.2]) :=
      flatten_appendAt acc (p.1 % w) (by rw [hacc]; exact Nat.mod_lt _ hw) p.2
    have h2 := ih (appendAt acc (p.1 % w) p.2) (by rw [length_appendAt, hacc])
    have h3 := h2.trans (h1.append_right (l.map Prod.snd))
    simpa [List.append_assoc] using h3

theorem flatten_replicate_nil {α : Type} (w : Nat) :
    (List.replicate w ([] : List α)).flatten = [] := by
  induction w with
  | zero => rfl
  | succ w ih => simp [List.replicate_succ, ih]

theorem chunkFilenames_flatten_perm {α : Type} (w : Nat) (hw : 0 < w)
    (entries : List α) : ((chunkFilenames w entries).flatten).Perm entries := by
  have h := chunkFold_flatten_perm w hw entries.enum (List.replicate w []) (by simp)
  simpa [chunkFilenames, List.enum, flatten_replicate_nil] using h

theorem chunkFold_length {α : Type} (w : Nat) (l : List (Nat × α)) :
    ∀ acc : List (List α),
      (l.foldl (fun chunks p => appendAt chunks (p.1 % w) p.2) acc).length
        = acc.length := by
  induction l with
  | nil => intro acc; rfl
  | cons p l ih =>
    intro acc
    rw [List.foldl_cons, ih (appendAt acc (p.1 % w) p.2), length_appendAt]

theorem chunkFilenames_length {α : Type} (w : Nat) (entries : List α) :
    (chunkFilenames w entries).length = w := by
  rw [chunkFilenames, chunkFold_length, List.length_replicate]

theorem flatten_filter_nonempty {α : Type} (l : List (List α)) :
    (l.filter (fun c => decide (0 < c.length))).flatten = l.flatten := by
  induction l with
  | nil => rfl
  | cons c cs ih =>
    cases c with
    | nil => simpa [List.filter_cons] using ih
    | cons a as => simp [List.filter_cons, ih]

/-! Claim theorems. -/

/-- C5: for every list of N ≥ 0 prediction files and every maxWorkers W ≥ 2,
the scheduler clamps the effective worker count to w = min(W, N) and
partitions the files round-robin: batch i holds exactly the files at
indices i, i+w, i+2w, … in their original order (its j-th element is the
file at index i + j·w, and nothing else), every file appears in exactly one
batch (the concatenation of the batches is a permutation of the file list,
and the index sets of distinct batches are disjoint residue classes), and
only non-empty batches are dispatched. -/
theorem roundRobin_partition (W : Nat) {α : Type} (entries : List α) (w : Nat)
    (hW : 2 ≤ W) (hw : w = min W entries.length) :
    (chunkFilenames w entries).length = w
    ∧ (∀ i, i < w → ∀ j, (nth (chunkFilenames w entries) i)[j]? = entries[i + j * w]?)
    ∧ ((chunkFilenames w entries).flatten).Perm entries
    ∧ (∀ c ∈ dispatched w entries, c ≠ [])
    ∧ ((dispatched w entries).flatten).Perm entries := by
  have hflat : ((chunkFilenames w entries).flatten).Perm entries := by
    cases entries with
    | nil =>
      have hw0 : w = 0 := by simpa using hw
      subst hw0
      simp [chunkFilenames, flatten_replicate_nil]
    | cons e es =>
      have hwpos : 0 < w := by
        rw [hw]
        exact lt_min_iff.mpr ⟨by omega, by simp⟩
      exact chunkFilenames_flatten_perm w hwpos (e :: es)
  refine ⟨chunkFilenames_length w entries, ?_, hflat, ?_, ?_⟩
  · intro i hi j
    rw [chunkFilenames_nth w i hi entries, everyNthFrom_getElem w i hi entries 0 j]
    have hz : residueDist w (0 % w) i = i := by
      rw [Nat.zero_mod]
      simp [residueDist]
    rw [hz]
  · intro c hc
    have := (List.mem_filter.mp hc).2
    have hlen : 0 < c.length := by simpa using this
    exact List.ne_nil_of_length_pos hlen
  · rw [dispatched, flatten_filter_nonempty]
    exact hflat

/-- Witness for C5 at a concrete input: three files, two workers. -/
theorem roundRobin_partition_witness :
    (nth (chunkFilenames 2 [10, 20, 30]) 0)[1]? = some 30
    ∧ ((chunkFilenames 2 [10, 20, 30]).flatten).Perm [10, 20, 30] := by
  have h := roundRobin_partition 2 [10, 20, 30] 2 (by decide) (by decide)
  exact ⟨by simpa using h.2.1 0 (by decide) 1, h.2.2.1⟩

/-! Helper lemmas about the projection and the worker error paths. -/

theorem projectRing_eq_map (t : Affine) (ring : List (Int × Int)) :
    projectRing t ring
      = ring.map (fun p =>
          (t.a * ((p.1 : Rat) + 1/2) + t.b * ((p.2 : Rat) + 1/2) + t.c,
           t.d * ((p.1 : Rat) + 1/2) + t.e * ((p.2 : Rat) + 1/2) + t.f)) := by
  induction ring with
  | nil => rfl
  | cons p ring ih =>
    simpa [projectRing, transform_xy, coordsToArray, List.zip_cons_cons] using ih

theorem projectOneFile_error (env : Env) (name : String) (fe : FileEnv)
    (mc : Bool) (conf : Option Rat) :
    projectOneFile env name fe mc conf
      = .error (if fe.tileExists then PyErr.typeError else PyErr.ioError) := by
  cases h : fe.tileExists <;> simp [projectOneFile, h, pathReplace2]

theorem project_files_aborts (env : Env) (mc : Bool) (conf : Option Rat)
    (fl : Bool) (files : List (String × FileEnv)) :
    (project_files env mc conf fl files).1 = []
    ∧ ((project_files env mc conf fl files).2 = none ↔ files = []) := by
  cases files with
  | nil => simp [project_files]
  | cons nf rest =>
    obtain ⟨name, fe⟩ := nf
    rw [project_files, projectOneFile_error]
    simp

/-- C7 counterexample: projecting the pixel ring `[(0, 0)]` through
CoordinateProjector with the identity affine transform yields `[(1/2, 1/2)]`
(the pixel center), not the original coordinates: the difference is half a
pixel, far beyond floating-point tolerance (coordinates are modelled as
exact rationals here). -/
theorem projectRing_identity_not_roundtrip :
    projectRing affineIdentity [((0 : Int), (0 : Int))] = [((1/2 : Rat), (1/2 : Rat))]
    ∧ projectRing affineIdentity [((0 : Int), (0 : Int))] ≠ [((0 : Rat), (0 : Rat))] := by
  have h : projectRing affineIdentity [((0 : Int), (0 : Int))] = [((1/2 : Rat), (1/2 : Rat))] := by
    rw [projectRing_eq_map]
    simp [affineIdentity]
  refine ⟨h, ?_⟩
  rw [h]
  intro hc
  have : (1/2 : Rat) = 0 := congrArg (fun l => (l.headI).1) hc
  norm_num at this

/-- C7 (amended): CoordinateProjector is a pure order-preserving affine
application at pixel CENTERS: the k-th output pair is the affine transform
applied to the k-th input pixel shifted by (+1/2, +1/2); in particular the
identity transform returns each coordinate shifted by +1/2, not the
original ring. -/
theorem projectRing_center_affine (t : Affine) (ring : List (Int × Int)) :
    projectRing t ring
      = ring.map (fun p =>
          (t.a * ((p.1 : Rat) + 1/2) + t.b * ((p.2 : Rat) + 1/2) + t.c,
           t.d * ((p.1 : Rat) + 1/2) + t.e * ((p.2 : Rat) + 1/2) + t.f))
    ∧ projectRing affineIdentity ring
      = ring.map (fun p => ((p.1 : Rat) + 1/2, (p.2 : Rat) + 1/2)) := by
  refine ⟨projectRing_eq_map t ring, ?_⟩
  rw [projectRing_eq_map]
  simp [affineIdentity]

/-- C1 (code behaviour at the failing input): under overlap mode
(`shift = some 1`), an instance whose projected ring lies strictly inside
the usable bounding box is nevertheless dropped — `process_crowns` returns
no feature at all, because the unimplemented `is_edge_crown` returns `None`
and `not None` is always truthy; the second conjunct certifies that the
ring is strictly interior in the sense the spec assigns to EdgeCrownFilter. -/
theorem overlap_mode_drops_interior_crown :
    process_crowns env1 false affineIdentity "Prediction_t.json" (some 1) none [inst1]
      = .ok []
    ∧ specIsInterior (projectRing affineIdentity ring1) bbox1 = true := by
  constructor
  · decide
  · rw [projectRing_eq_map]
    simp [specIsInterior, ring1, bbox1, affineIdentity]
    norm_num

/-- C2 (code behaviour): `project_files` never writes any output file: for
every environment and every batch, the write list is empty, and an error
escapes as soon as the batch is non-empty (for each file, either the
companion tile is missing, or the two-argument `pathlib.Path.replace` call
at the geo-metadata path derivation raises `TypeError` before anything is
written). -/
theorem project_files_writes_nothing (env : Env) (mc : Bool) (conf : Option Rat)
    (fl : Bool) (files : List (String × FileEnv)) :
    (project_files env mc conf fl files).1 = []
    ∧ ((project_files env mc conf fl files).2 = none ↔ files = []) :=
  project_files_aborts env mc conf fl files

/-- C3 counterexample: with `maxWorkers = 1` and one well-formed prediction
file whose tile exists, the scheduler does not return normally — the
worker's `TypeError` propagates to the caller, because the sequential path
has no exception handler. -/
theorem sequential_error_escapes :
    (project_to_geojson env1 folderA false 1).2 = some PyErr.typeError := by
  decide

/-- C3 (amended): errors are caught and logged only on the parallel path:
for maxWorkers ≥ 2 and a non-empty prediction-file listing, the scheduler
returns normally whatever happens inside the batches (every batch error is
swallowed by the `except Exception` handler); on the sequential
maxWorkers = 1 path a worker error propagates to the caller, and on the
parallel path with an empty listing the pool construction itself raises
`ValueError`. -/
theorem parallel_path_returns_normally (env : Env) (folder : List (String × FileEnv))
    (mc : Bool) (W : Nat) (hW : 2 ≤ W) (hne : listEntries folder ≠ []) :
    (project_to_geojson env folder mc W).2 = none := by
  have h1 : ¬(W = 1) := by omega
  have hlen : 0 < (listEntries folder).length := List.length_pos.mpr hne
  have hne0 : ¬(min W (listEntries folder).length = 0) := by
    have : 0 < min W (listEntries folder).length := lt_min_iff.mpr ⟨by omega, hlen⟩
    omega
  simp [project_to_geojson, h1, hne0]

/-- Witness for C3's amended theorem at a concrete input. -/
theorem parallel_path_returns_normally_witness :
    2 ≤ 2 ∧ listEntries folderA ≠ []
    ∧ (project_to_geojson env1 folderA false 2).2 = none :=
  ⟨by decide, by decide,
   parallel_path_returns_normally env1 folderA false 2 (by decide) (by decide)⟩

/-- C4 counterexample: with ten prediction files of which exactly one is
malformed (and the others well-formed, with existing tiles), the worker
produces zero output files — not nine — and an error escapes `project_files`;
the sequential run writes nothing. -/
theorem malformed_batch_zero_outputs :
    (project_files env1 false none true files10).1.length = 0
    ∧ (project_files env1 false none true files10).2 = some PyErr.typeError
    ∧ (project_to_geojson env1 files10 false 1).1 = [] := by
  refine ⟨by decide, by decide, by decide⟩

/-- C4 (amended): a malformed prediction file is not skipped: there is no
per-file exception handling in `project_files`, so a batch containing a
malformed file always ends in an escaped error — and (because the tile-path
`TypeError` aborts processing at the first file regardless) no output is
written for the well-formed files of the batch either. -/
theorem malformed_file_aborts_batch (env : Env) (mc : Bool) (conf : Option Rat)
    (fl : Bool) (files : List (String × FileEnv)) (nf : String × FileEnv)
    (hmem : nf ∈ files) (_hbad : nf.2.content = none) :
    (project_files env mc conf fl files).2 ≠ none
    ∧ (project_files env mc conf fl files).1 = [] := by
  have hne : files ≠ [] := List.ne_nil_of_mem hmem
  have h := project_files_aborts env mc conf fl files
  exact ⟨fun hnone => hne (h.2.mp hnone), h.1⟩

/-- Witness for C4's amended theorem at the ten-file input. -/
theorem malformed_file_aborts_batch_witness :
    ("Prediction_a6.json", badFe) ∈ files10
    ∧ (project_files env1 false none true files10).2 ≠ none
    ∧ (project_files env1 false none true files10).1 = [] := by
  have h := malformed_file_aborts_batch env1 false none true files10
    ("Prediction_a6.json", badFe) (by decide) (by decide)
  exact ⟨by decide, h.1, h.2⟩

/-- C6 counterexample: with zero prediction files and maxWorkers = 2 the
run is not a no-op: the effective worker count is clamped to zero and the
thread-pool construction raises `ValueError`, which propagates to the
caller. -/
theorem empty_folder_parallel_raises :
    project_to_geojson env1 [] false 2 = ([], some PyErr.valueError) := by
  decide

/-- C6 (amended): with zero prediction files the run completes as a no-op
only on the sequential maxWorkers = 1 path: it returns normally, writes
nothing and raises nothing; on the parallel path (maxWorkers ≥ 2) the
clamped worker count is zero and the pool construction raises `ValueError`. -/
theorem empty_folder_sequential_noop (env : Env) (folder : List (String × FileEnv))
    (mc : Bool) (h : listEntries folder = []) :
    project_to_geojson env folder mc 1 = ([], none) := by
  simp [project_to_geojson, h, project_files]

/-- Witness for C6's amended theorem at a concrete input. -/
theorem empty_folder_sequential_noop_witness :
    listEntries folderT = [] ∧ project_to_geojson env1 folderT false 1 = ([], none) :=
  ⟨by decide, empty_folder_sequential_noop env1 folderT false (by decide)⟩

/-! Helper lemmas for the filter-free comparison (claim C9). -/

theorem processCrowns_no_filters (env : Env) (mc : Bool) (t : Affine) (fn : String)
    (crowns : List Instance) :
    process_crowns env mc t fn none none crowns = processCrownsNoFilters env mc t crowns := by
  induction crowns with
  | nil => rfl
  | cons cd rest ih =>
    obtain ⟨cat, seg, sc⟩ := cd
    rw [process_crowns, processCrownsNoFilters]
    cases mc <;> cases cat <;> cases seg <;> cases sc <;>
      simp [pyGet, Except.map, ih]

theorem projectOneFile_no_filters (env : Env) (name : String) (fe : FileEnv)
    (mc : Bool) :
    projectOneFile env name fe mc none = projectOneFileNoFilters env name fe mc := by
  simp only [projectOneFile, projectOneFileNoFilters, processCrowns_no_filters]

theorem projectFiles_no_filters (env : Env) (mc : Bool) (fl : Bool)
    (files : List (String × FileEnv)) :
    project_files env mc none fl files = projectFilesNoFilters env mc files := by
  induction files with
  | nil => rfl
  | cons nf rest ih =>
    obtain ⟨name, fe⟩ := nf
    rw [project_files, projectFilesNoFilters, projectOneFile_no_filters, ih]

theorem projectToGeojson_no_filters (env : Env) (folder : List (String × FileEnv))
    (mc : Bool) (W : Nat) :
    project_to_geojson env folder mc W = projectToGeojsonNoFilters env folder mc W := by
  simp only [project_to_geojson, projectToGeojsonNoFilters, projectFiles_no_filters]

/-- C9: through the public entry point, `project_files` is invoked with
`confidence = None` on both the sequential and the parallel path, and
`process_crowns` is invoked with `shift = None`, so the confidence filter
and the edge-crown filter never drop an instance: the crown pipeline at
`shift = none, confidence = none` coincides with the filter-free pipeline,
and the whole scheduler run coincides with the filter-free run for every
folder, multi-class flag and worker count. -/
theorem entry_point_no_filters :
    (∀ (env : Env) (mc : Bool) (t : Affine) (fn : String) (crowns : List Instance),
       process_crowns env mc t fn none none crowns
         = processCrownsNoFilters env mc t crowns)
    ∧ (∀ (env : Env) (folder : List (String × FileEnv)) (mc : Bool) (W : Nat),
       project_to_geojson env folder mc W = projectToGeojsonNoFilters env folder mc W) :=
  ⟨processCrowns_no_filters, projectToGeojson_no_filters⟩

/-- C8: in every feature list `process_crowns` returns, a feature carries a
`category` exactly when multi-class mode is enabled for the run: all
features of one output collection have `category` present (multi-class) or
all have it absent (single-class); the two shapes are never mixed. -/
theorem features_category_iff_multiclass (env : Env) (mc : Bool) (t : Affine)
    (fn : String) (shift conf : Option Rat) (crowns : List Instance)
    (feats : List GeoFeature)
    (h : process_crowns env mc t fn shift conf crowns = .ok feats) :
    ∀ f ∈ feats, f.category.isSome = mc := by
  induction crowns generalizing feats with
  | nil =>
    rw [process_crowns] at h
    cases h
    simp
  | cons cd rest ih =>
    obtain ⟨cat, seg, sc⟩ := cd
    rw [process_crowns] at h
    cases mc <;> cases cat <;> cases seg <;> cases sc <;>
      simp only [pyGet, Except.map, Bool.false_eq_true, eq_self_iff_true,
        if_false, if_true] at h
    all_goals try exact absurd h (fun hh => Except.noConfusion hh)
    all_goals repeat
      first
      | exact ih feats h
      | split at h
    all_goals try exact absurd h (fun hh => Except.noConfusion hh)
    all_goals
      rename_i feats' heq
    all_goals
      cases h
    all_goals
      intro f hf
    all_goals
      rcases List.mem_cons.mp hf with hf | hf
    all_goals first
      | exact ih feats' heq f hf
      | (rw [hf]; rfl)

/-- Witness for C8 at a concrete input: the single feature emitted for
`inst1` in multi-class mode carries a category. -/
theorem features_category_iff_multiclass_witness :
    feat1.category.isSome = true := by
  have hrun : process_crowns env1 true affineIdentity "a.json" none none [inst1]
      = .ok [feat1] := by
    rw [process_crowns, process_crowns]
    simp only [pyGet, env1, inst1, if_pos rfl]
    rw [show projectRing affineIdentity ring1
        = [((3:Rat)/2, (3:Rat)/2), ((7:Rat)/2, (3:Rat)/2),
           ((7:Rat)/2, (7:Rat)/2), ((3:Rat)/2, (7:Rat)/2)] from by
      rw [projectRing_eq_map]
      simp [ring1, affineIdentity]
      norm_num]
    rfl
  exact features_category_iff_multiclass env1 true affineIdentity "a.json"
    none none [inst1] [feat1] hrun feat1 (List.mem_singleton.mpr rfl)

/-- C10: in multi-class mode `process_crowns` reads `category_id` from each
instance before the confidence filter and the decode check are applied, so
an instance lacking the key raises `KeyError "category_id"` and aborts the
whole file whatever its score and whatever the filters would have done;
conversely, when every instance of the file carries a `category_id`, this
error branch is unreachable. -/
theorem category_lookup_before_filters :
    (∀ (env : Env) (t : Affine) (fn : String) (shift conf : Option Rat)
       (cd : Instance) (rest : List Instance), cd.category_id = none →
       process_crowns env true t fn shift conf (cd :: rest)
         = .error (.keyError "category_id"))
    ∧ (∀ (env : Env) (t : Affine) (fn : String) (shift conf : Option Rat)
       (crowns : List Instance), (∀ cd ∈ crowns, (cd.category_id).isSome) →
       process_crowns env true t fn shift conf crowns
         ≠ .error (.keyError "category_id")) := by
  constructor
  · intro env t fn shift conf cd rest hnone
    rw [process_crowns]
    simp [hnone, pyGet, Except.map]
  · intro env t fn shift conf crowns
    induction crowns with
    | nil =>
      intro _ h
      rw [process_crowns] at h
      exact Except.noConfusion h
    | cons cd rest ih =>
      intro hall h
      have hcd : (cd.category_id).isSome := hall cd (List.mem_cons_self cd rest)
      have hrest : ∀ cd' ∈ rest, (cd'.category_id).isSome :=
        fun cd' hm => hall cd' (List.mem_cons_of_mem cd hm)
      obtain ⟨cat, seg, sc⟩ := cd
      cases cat with
      | none => simp at hcd
      | some v =>
        rw [process_crowns] at h
        cases seg <;> cases sc <;>
          simp only [pyGet, Except.map, eq_self_iff_true, if_true] at h
        all_goals try exact absurd h (by decide)
        all_goals repeat
          first
          | exact ih hrest h
          | split at h
        all_goals try exact absurd h (fun hh => Except.noConfusion hh)
        all_goals
          rename_i e heq
        all_goals
          cases h
        all_goals exact ih hrest heq

/-- Witness for C10 at concrete inputs: an instance without `category_id`
and a low score aborts the file with `KeyError`, and a file whose only
instance carries `category_id` never hits that error. -/
theorem category_lookup_before_filters_witness :
    process_crowns env1 true affineIdentity "a.json" none (some (1/2)) [instNoCat]
      = .error (.keyError "category_id")
    ∧ process_crowns env1 true affineIdentity "a.json" none none [inst1]
      ≠ .error (.keyError "category_id") :=
  ⟨category_lookup_before_filters.1 env1 affineIdentity "a.json" none (some (1/2))
     instNoCat [] rfl,
   category_lookup_before_filters.2 env1 affineIdentity "a.json" none none
     [inst1] (by decide)⟩

end Detectree2
